import Mathlib

set_option maxHeartbeats 1000000

/-
  Shallow embedding of `src/dipdup/index.py` (the dipdup index engine):
  the per-index state machines, the operation / big-map matchers, the
  single-level rollback controller and the `process()` driver.

  Modelling conventions:
  * async methods become pure functions; mutable attributes of the index
    objects become fields of explicit state records threaded through;
  * Python `Optional[...]` becomes `Option ...`; Python truthiness tests on
    an `Optional[int]` (`if self._rollback_level:`, `if config.last_level:`)
    are rendered by `truthyNat`, which is false both for `none` and for
    `some 0`, and likewise `truthyStr` for `Optional[str]`;
  * raised exceptions become `Except` errors, one constructor per `raise`
    site; `ctx.reindex(...)` is modelled as a terminal outcome;
  * Python sets are rendered as lists used only through membership;
  * external collaborators (the TzKT datasource, the fetchers, pydantic
    type classes) are parameters: contract hash lookups are a function
    `String → Int × Int`, fetcher output is a list of per-level batches,
    and a pydantic class is a `TypeCls` whose `parse` is a finite graph
    (`none` result = `ValidationError`);
  * the `while` loop of `_match_operations` can genuinely diverge (an
    all-optional pattern and a non-matching operation make no progress),
    so the loop is embedded with explicit fuel: `none` = out of fuel.
-/

namespace Dipdup

/-- Python truthiness of an `Optional[int]`: `None` and `0` are falsy. -/
def truthyNat : Option Nat → Bool
  | none => false
  | some n => n != 0

/-- Python truthiness of an `Optional[str]`: `None` and the empty string are falsy. -/
def truthyStr : Option String → Bool
  | none => false
  | some s => s != ""

/-- `IndexStatus` enum of `dipdup.models`. -/
inductive IndexStatus
  | NEW
  | SYNCING
  | REALTIME
  | ONESHOT
  | ROLLED_BACK
deriving DecidableEq, Repr

/-- A pydantic type class as seen from `index.py`: an opaque validator.
Its behaviour is modelled as a finite graph; `parse` returns `none` exactly
when `parse_obj` would raise `ValidationError`. -/
structure TypeCls where
  name : String
  graph : List (String × String)
deriving DecidableEq, Repr

/-- `parse_obj` of a pydantic type class (external to `index.py`). -/
def TypeCls.parse (t : TypeCls) (raw : String) : Option String :=
  (t.graph.find? (fun p => p.1 == raw)).map (fun p => p.2)

/-- `OperationData` of `dipdup.models`, restricted to the fields `index.py` reads. -/
structure OperationData where
  level : Nat
  hash : String
  counter : Nat
  type : String
  sender_address : Option String
  target_address : Option String
  entrypoint : Option String
  parameter_json : String
  storage : String
  originated_contract_address : Option String
  originated_contract_code_hash : Option Int
  originated_contract_type_hash : Option Int
deriving DecidableEq, Repr

/-- `OperationHandlerTransactionPatternConfig`: the `destination` / `source`
contract references are collapsed to their resolved addresses. -/
structure TransactionPatternConfig where
  entrypoint : Option String
  destination : Option String
  source : Option String
  optional : Bool
  parameter_type_cls : Option TypeCls
  storage_type_cls : Option TypeCls
deriving DecidableEq, Repr

/-- `OperationHandlerOriginationPatternConfig`, with contract references
collapsed to resolved addresses. -/
structure OriginationPatternConfig where
  source : Option String
  originated_contract : Option String
  similar_to : Option String
  strict : Bool
  optional : Bool
  storage_type_cls : Option TypeCls
deriving DecidableEq, Repr

/-- `OperationHandlerPatternConfigT`, the union of the two slot kinds. -/
inductive PatternConfig
  | transaction (p : TransactionPatternConfig)
  | origination (p : OriginationPatternConfig)
deriving DecidableEq, Repr

/-- The `optional` flag of a pattern slot. -/
def PatternConfig.optional : PatternConfig → Bool
  | .transaction p => p.optional
  | .origination p => p.optional

/-- `OperationHandlerConfig`: callback name plus the slot pattern. -/
structure OperationHandlerConfig where
  callback : String
  pattern : List PatternConfig
deriving DecidableEq, Repr

/-- `OperationSubgroup` namedtuple: `(hash, counter)`. -/
structure OperationSubgroup where
  hash : String
  counter : Nat
deriving DecidableEq, Repr

/-- The per-slot "origination already processed" memo of the pattern config
objects. A slot is identified by its `(handler index, slot index)` pair,
which renders Python object identity of the distinct config objects. -/
abbrev Memo := List (Nat × Nat × Option String)

/-- Modelled from the spec: `origination_processed` is a method of
`OperationHandlerOriginationPatternConfig` in `dipdup.config`, which is not
under `src/`. Per the spec it tracks, per pattern slot and for the lifetime
of the config object, the originated contract addresses the slot has already
accepted: the call reports whether the address was seen before and records
it. -/
def origination_processed (hidx pidx : Nat) (address : Option String) (memo : Memo) :
    Bool × Memo :=
  if (hidx, pidx, address) ∈ memo then (true, memo)
  else (false, (hidx, pidx, address) :: memo)

/-- `OperationHandlerArgumentT`: `Optional[Union[Transaction, Origination, OperationData]]`. -/
inductive OperationHandlerArgument
  | none
  | raw (op : OperationData)
  | transaction (data : OperationData) (parameter : Option String) (storage : Option String)
  | origination (data : OperationData) (storage : Option String)
deriving DecidableEq, Repr

/-- `InvalidDataError` raised from `OperationIndex._prepare_handler_args`:
carries the type class, the raw value handed to `parse_obj`, and the
source operation. -/
structure InvalidDataErrorOp where
  schema : TypeCls
  raw : String
  event : OperationData
deriving DecidableEq, Repr

/-- Errors escaping `_match_operations`. -/
inductive MatchErr
  | invalidData (e : InvalidDataErrorOp)
  | patternIndex
deriving DecidableEq, Repr

/-- A `MatchedOperationsT` triple `(subgroup, handler_config, args)`; `hidx`
records which element of the handlers list fired (object identity). -/
structure MatchedOperations where
  subgroup : OperationSubgroup
  hidx : Nat
  handler : OperationHandlerConfig
  args : List OperationHandlerArgument
deriving DecidableEq, Repr

/-- Modelled from the spec: `OperationData.get_merged_storage` lives in
`dipdup.models`, not under `src/`. Per the spec it decodes the operation's
merged storage against the declared storage schema; no schema gives no
decoded storage. -/
def get_merged_storage (op : OperationData) (ty : Option TypeCls) : Option String :=
  match ty with
  | none => none
  | some t => t.parse op.storage

/-- One slot/operation pair of `OperationIndex._prepare_handler_args`
(the body of its `for pattern_config, operation in zip(...)` loop). -/
def prepare_one (pc : PatternConfig) (mo : Option OperationData) :
    Except InvalidDataErrorOp OperationHandlerArgument :=
  match mo with
  | none => .ok .none
  | some op =>
    match pc with
    | .transaction p =>
      if !truthyStr p.entrypoint then .ok (.raw op)
      else
        match p.parameter_type_cls with
        | none => .ok (.transaction op none (get_merged_storage op p.storage_type_cls))
        | some t =>
          match t.parse op.parameter_json with
          | none => .error ⟨t, op.parameter_json, op⟩
          | some v => .ok (.transaction op (some v) (get_merged_storage op p.storage_type_cls))
    | .origination p => .ok (.origination op (get_merged_storage op p.storage_type_cls))

/-- The `zip(handler_config.pattern, matched_operations)` loop of
`_prepare_handler_args`; like Python's `zip` it stops at the shorter list. -/
def prepare_list : List PatternConfig → List (Option OperationData) →
    Except InvalidDataErrorOp (List OperationHandlerArgument)
  | _, [] => .ok []
  | [], _ :: _ => .ok []
  | pc :: pat, mo :: mos =>
    match prepare_one pc mo with
    | .error e => .error e
    | .ok a =>
      match prepare_list pat mos with
      | .error e => .error e
      | .ok rest => .ok (a :: rest)

/-- `OperationIndex._prepare_handler_args`. -/
def prepare_handler_args (hc : OperationHandlerConfig) (matched : List (Option OperationData)) :
    Except InvalidDataErrorOp (List OperationHandlerArgument) :=
  prepare_list hc.pattern matched

/-- `OperationIndex._match_operation`: predicate matching one operation
against one pattern slot. `hashes` renders `_get_contract_hashes`
(a datasource lookup, external): address to `(code_hash, type_hash)`. -/
def match_operation (hashes : String → Int × Int) (pc : PatternConfig) (op : OperationData) :
    Bool :=
  match pc with
  | .transaction p =>
    if p.entrypoint != op.entrypoint then false
    else if truthyStr p.destination && (p.destination != op.target_address) then false
    else if truthyStr p.source && (p.source != op.sender_address) then false
    else true
  | .origination p =>
    if truthyStr p.source && (p.source != op.sender_address) then false
    else if truthyStr p.originated_contract &&
        (p.originated_contract != op.originated_contract_address) then false
    else if truthyStr p.similar_to then
      let ch := hashes (p.similar_to.getD "")
      if p.strict then some ch.1 == op.originated_contract_code_hash
      else some ch.2 == op.originated_contract_type_hash
    else true

/-- The origination de-duplication stanza inside the matching loop:
`if operation.type == 'origination' and isinstance(pattern_config, ...):
 if operation_matched is True and pattern_config.origination_processed(...):
 operation_matched = False`. Returns the corrected flag and the memo. -/
def memo_gate (hidx pidx : Nat) (pc : PatternConfig) (op : OperationData) (m0 : Bool)
    (memo : Memo) : Bool × Memo :=
  if op.type == "origination" then
    match pc with
    | .origination _ =>
      if m0 then
        let q := origination_processed hidx pidx op.originated_contract_address memo
        (!q.1, q.2)
      else (m0, memo)
    | .transaction _ => (m0, memo)
  else (m0, memo)

/-- `sum(map(lambda x: 0 if x.optional else 1, handler_config.pattern))`. -/
def requiredCount (pat : List PatternConfig) : Nat :=
  (pat.map (fun p => if p.optional then 0 else 1)).sum

/-- The two-cursor `while operation_idx < len(operations)` walk of
`_match_operations` for one subgroup and one handler, fuel-bounded
(the source loop can diverge when an optional slot never advances
`operation_idx`). On loop exit the trailing
`if len(matched_operations) >= <required count>` emission runs. -/
def handlerLoop (hashes : String → Int × Int) (sg : OperationSubgroup) (hidx : Nat)
    (hc : OperationHandlerConfig) (ops : List OperationData) :
    Nat → Nat → Nat → List (Option OperationData) → List MatchedOperations → Memo →
    Option (Except MatchErr (List MatchedOperations × Memo))
  | 0, _, _, _, _, _ => none
  | fuel + 1, oidx, pidx, matched, acc, memo =>
    match ops.get? oidx with
    | none =>
      if requiredCount hc.pattern ≤ matched.length then
        match prepare_handler_args hc matched with
        | .error e => some (.error (.invalidData e))
        | .ok args => some (.ok (acc ++ [⟨sg, hidx, hc, args⟩], memo))
      else some (.ok (acc, memo))
    | some op =>
      match hc.pattern.get? pidx with
      | none => some (.error .patternIndex)
      | some pc =>
        let pr := memo_gate hidx pidx pc op (match_operation hashes pc op) memo
        if pr.1 then
          if pidx + 1 = hc.pattern.length then
            match prepare_handler_args hc (matched ++ [some op]) with
            | .error e => some (.error (.invalidData e))
            | .ok args =>
              handlerLoop hashes sg hidx hc ops fuel (oidx + 1) 0 []
                (acc ++ [⟨sg, hidx, hc, args⟩]) pr.2
          else
            handlerLoop hashes sg hidx hc ops fuel (oidx + 1) (pidx + 1)
              (matched ++ [some op]) acc pr.2
        else if pc.optional then
          if pidx + 1 = hc.pattern.length then
            match prepare_handler_args hc (matched ++ [none]) with
            | .error e => some (.error (.invalidData e))
            | .ok args =>
              handlerLoop hashes sg hidx hc ops fuel oidx 0 []
                (acc ++ [⟨sg, hidx, hc, args⟩]) pr.2
          else
            handlerLoop hashes sg hidx hc ops fuel oidx (pidx + 1)
              (matched ++ [none]) acc pr.2
        else
          handlerLoop hashes sg hidx hc ops fuel (oidx + 1) pidx matched acc pr.2

/-- The `for handler_config in self._config.handlers` loop around the walk. -/
def handlersLoop (hashes : String → Int × Int) (sg : OperationSubgroup)
    (ops : List OperationData) (fuel : Nat) :
    List OperationHandlerConfig → Nat → List MatchedOperations → Memo →
    Option (Except MatchErr (List MatchedOperations × Memo))
  | [], _, acc, memo => some (.ok (acc, memo))
  | hc :: rest, hidx, acc, memo =>
    match handlerLoop hashes sg hidx hc ops fuel 0 0 [] acc memo with
    | none => none
    | some (.error e) => some (.error e)
    | some (.ok (acc', memo')) => handlersLoop hashes sg ops fuel rest (hidx + 1) acc' memo'

/-- Bucketing of operations by `(hash, counter)` preserving insertion order
(the `defaultdict(deque)` of `_match_operations`). -/
def addToSubgroups (acc : List (OperationSubgroup × List OperationData)) (op : OperationData) :
    List (OperationSubgroup × List OperationData) :=
  let key : OperationSubgroup := ⟨op.hash, op.counter⟩
  if acc.any (fun p => p.1 == key) then
    acc.map (fun p => if p.1 == key then (p.1, p.2 ++ [op]) else p)
  else acc ++ [(key, [op])]

/-- The grouped `operation_subgroups` mapping, in insertion order. -/
def groupSubgroups (ops : List OperationData) : List (OperationSubgroup × List OperationData) :=
  ops.foldl addToSubgroups []

/-- The `for operation_subgroup, operations in operation_subgroups.items()` loop. -/
def subgroupsLoop (hashes : String → Int × Int) (handlers : List OperationHandlerConfig)
    (fuel : Nat) :
    List (OperationSubgroup × List OperationData) → List MatchedOperations → Memo →
    Option (Except MatchErr (List MatchedOperations × Memo))
  | [], acc, memo => some (.ok (acc, memo))
  | (sg, sgops) :: rest, acc, memo =>
    match handlersLoop hashes sg sgops fuel handlers 0 acc memo with
    | none => none
    | some (.error e) => some (.error e)
    | some (.ok (acc', memo')) => subgroupsLoop hashes handlers fuel rest acc' memo'

/-- `OperationIndex._match_operations`. Returns the matched triples, the
fresh `_head_hashes` contents (cleared, then filled with every observed
hash) and the updated origination memo. -/
def match_operations (hashes : String → Int × Int) (handlers : List OperationHandlerConfig)
    (ops : List OperationData) (memo : Memo) (fuel : Nat) :
    Option (Except MatchErr (List MatchedOperations × List String × Memo)) :=
  let head_hashes := ops.map (fun op => op.hash)
  match subgroupsLoop hashes handlers fuel (groupSubgroups ops) [] memo with
  | none => none
  | some (.error e) => some (.error e)
  | some (.ok (ms, memo')) => some (.ok (ms, head_hashes, memo'))

/-- The in-memory state of one `OperationIndex`: the persisted state row
(`level`, `status`) plus the private caches. -/
structure OpIndexState where
  state_level : Nat
  status : IndexStatus
  rollback_level : Option Nat
  head_hashes : List String
  memo : Memo
deriving DecidableEq, Repr

/-- Errors escaping `OperationIndex._process_level_operations`; `reindexRollback`
renders the terminal `ctx.reindex(ReindexingReason.ROLLBACK)`. -/
inductive ProcErr
  | mixedLevels
  | rollbackMismatch
  | reindexRollback
  | levelTooLow
  | matchE (e : MatchErr)
deriving DecidableEq, Repr

/-- The set-based `_extract_level` check: all items must share one level. -/
def dedupNat (l : List Nat) : List Nat :=
  l.foldl (fun acc x => if x ∈ acc then acc else acc ++ [x]) []

/-- `Index._extract_level`: `none` renders the mixed-levels `RuntimeError`. -/
def extract_level (ops : List OperationData) : Option Nat :=
  match dedupNat (ops.map (fun op => op.level)) with
  | [l] => some l
  | _ => none

/-- The tail of `_process_level_operations` once a batch (possibly reduced by
the rollback reconciliation) is to be matched: run `_match_operations`, fire
the matched handlers, and bump `state.level` to the batch level. -/
def run_match_branch (hashes : String → Int × Int) (handlers : List OperationHandlerConfig)
    (st : OpIndexState) (ops : List OperationData) (level : Nat) (fuel : Nat) :
    Option (Except ProcErr (List MatchedOperations × OpIndexState)) :=
  match match_operations hashes handlers ops st.memo fuel with
  | none => none
  | some (.error e) => some (.error (.matchE e))
  | some (.ok (ms, hh, memo')) =>
    some (.ok (ms, { st with state_level := level, head_hashes := hh, memo := memo' }))

/-- `OperationIndex._process_level_operations`. The fired handler list is
returned alongside the new state. -/
def process_level_operations (hashes : String → Int × Int)
    (handlers : List OperationHandlerConfig) (st : OpIndexState)
    (ops : List OperationData) (fuel : Nat) :
    Option (Except ProcErr (List MatchedOperations × OpIndexState)) :=
  if ops.isEmpty then some (.ok ([], st))
  else
    match extract_level ops with
    | none => some (.error .mixedLevels)
    | some level =>
      if truthyNat st.rollback_level then
        let rl := st.rollback_level.getD 0
        if level = rl ∧ rl = st.state_level then
          let expected := st.head_hashes
          let received := ops.map (fun op => op.hash)
          let missing := expected.filter (fun (h : String) => !(decide (h ∈ received)))
          if missing.isEmpty then
            let new_hashes := received.filter (fun (h : String) => !(decide (h ∈ expected)))
            let new_ops := ops.filter (fun op => decide (op.hash ∈ new_hashes))
            run_match_branch hashes handlers
              { st with rollback_level := none, head_hashes := [] } new_ops level fuel
          else some (.error .reindexRollback)
        else some (.error .rollbackMismatch)
      else if level < st.state_level then some (.error .levelTooLow)
      else run_match_branch hashes handlers st ops level fuel

/-- Errors of `OperationIndex._single_level_rollback`. -/
inductive RollbackErr
  | alreadyInRollback
  | indexAhead
deriving DecidableEq, Repr

/-- `OperationIndex._single_level_rollback`. -/
def single_level_rollback (st : OpIndexState) (level : Nat) : Except RollbackErr OpIndexState :=
  if truthyNat st.rollback_level then .error .alreadyInRollback
  else if st.state_level < level then .ok st
  else if st.state_level = level then .ok { st with rollback_level := some level }
  else .error .indexAhead

/-- Error of `Index._enter_sync_state`: synchronizing down is fatal. -/
inductive EnterErr
  | fromHigher
deriving DecidableEq, Repr

/-- `Index._enter_sync_state`: `ok none` means nothing to do; `ok (some first)`
means proceed (the caller sets status `SYNCING` at level `first`). -/
def enter_sync_state (status : IndexStatus) (level last_level : Nat) :
    Except EnterErr (Option Nat) :=
  if status = IndexStatus.ONESHOT then .ok none
  else if level = last_level then .ok none
  else if level > last_level then .error .fromHigher
  else .ok (some level)

/-- `Index._exit_sync_state` for an operation index. -/
def exit_sync_state (st : OpIndexState) (last_level : Nat) : OpIndexState :=
  { st with status := IndexStatus.REALTIME, state_level := last_level }

/-- Errors escaping `OperationIndex._synchronize`. -/
inductive OpSyncErr
  | fromHigher
  | proc (e : ProcErr)
deriving DecidableEq, Repr

/-- The `async for _, operations in fetcher.fetch_operations_by_level()`
loop of `OperationIndex._synchronize`: the fetcher is external, so its
yielded batches are the `batches` parameter. -/
def syncBatches (hashes : String → Int × Int) (handlers : List OperationHandlerConfig) :
    OpIndexState → List (List OperationData) → List MatchedOperations → Nat → Nat →
    Option (Except OpSyncErr (List MatchedOperations × OpIndexState))
  | st, [], fired, last_level, _fuel => some (.ok (fired, exit_sync_state st last_level))
  | st, b :: bs, fired, last_level, fuel =>
    match process_level_operations hashes handlers st b fuel with
    | none => none
    | some (.error e) => some (.error (.proc e))
    | some (.ok (f, st')) => syncBatches hashes handlers st' bs (fired ++ f) last_level fuel

/-- `OperationIndex._synchronize(last_level, cache)`. The address-set
computation and the fetcher construction only parameterize the external
fetcher, whose per-level output is the `batches` parameter; the `cache`
flag is likewise consumed by the fetcher only. -/
def operation_synchronize (hashes : String → Int × Int)
    (handlers : List OperationHandlerConfig) (st : OpIndexState)
    (batches : List (List OperationData)) (last_level : Nat) (fuel : Nat) :
    Option (Except OpSyncErr (List MatchedOperations × OpIndexState)) :=
  match enter_sync_state st.status st.state_level last_level with
  | .error _ => some (.error .fromHigher)
  | .ok none => some (.ok ([], st))
  | .ok (some _first) =>
    syncBatches hashes handlers { st with status := IndexStatus.SYNCING } batches [] last_level fuel

/-- A queue item of `OperationIndex`: `Operations` tuple or `SingleLevelRollback`. -/
inductive OperationQueueItem
  | operations (ops : List OperationData)
  | rollback (level : Nat)
deriving DecidableEq, Repr

/-- Errors escaping `OperationIndex._process_queue`. -/
inductive QueueErr
  | rb (e : RollbackErr)
  | pr (e : ProcErr)
deriving DecidableEq, Repr

/-- `OperationIndex._process_queue`: drain the realtime queue front to back. -/
def process_queue (hashes : String → Int × Int) (handlers : List OperationHandlerConfig) :
    OpIndexState → List OperationQueueItem → Nat →
    Option (Except QueueErr (List MatchedOperations × OpIndexState))
  | st, [], _fuel => some (.ok ([], st))
  | st, .rollback level :: rest, fuel =>
    match single_level_rollback st level with
    | .error e => some (.error (.rb e))
    | .ok st' => process_queue hashes handlers st' rest fuel
  | st, .operations ops :: rest, fuel =>
    match process_level_operations hashes handlers st ops fuel with
    | none => none
    | some (.error e) => some (.error (.pr e))
    | some (.ok (fired, st')) =>
      match process_queue hashes handlers st' rest fuel with
      | none => none
      | some (.error e) => some (.error e)
      | some (.ok (fired2, st'')) => some (.ok (fired ++ fired2, st''))

/-- Observable actions of one `Index.process()` call. -/
inductive ProcessEvent
  | synchronized (last_level : Nat) (cache : Bool)
  | statusOneshot (last_level : Nat)
  | queueCleared
  | queueDrained
deriving DecidableEq, Repr

/-- Errors escaping `Index.process()` (operation variant). `syncLevelNotSet`
renders the `RuntimeError` raised when `datasource.sync_level is None`. -/
inductive ProcessErr
  | syncLevelNotSet
  | sync (e : OpSyncErr)
  | queue (e : QueueErr)
deriving DecidableEq, Repr

/-- An `OperationIndex` together with its realtime queue. -/
structure OperationIndexFull where
  st : OpIndexState
  queue : List OperationQueueItem
deriving DecidableEq, Repr

/-- `Index.process()` for an `OperationIndex`. `last_level_cfg` is
`config.last_level`, `sync_level` is `datasource.sync_level`; both are
tested the way Python tests them (truthiness, `is None`). Note the
source's one-shot branch does not return: it falls through to the
`sync_level` dispatch. -/
def operation_process (hashes : String → Int × Int)
    (handlers : List OperationHandlerConfig) (last_level_cfg : Option Nat)
    (sync_level : Option Nat) (full : OperationIndexFull)
    (batches : List (List OperationData)) (fuel : Nat) :
    Option (Except ProcessErr (OperationIndexFull × List ProcessEvent)) :=
  let step1 : Option (Except OpSyncErr (OpIndexState × List ProcessEvent)) :=
    if truthyNat last_level_cfg then
      let ll := last_level_cfg.getD 0
      match operation_synchronize hashes handlers full.st batches ll fuel with
      | none => none
      | some (.error e) => some (.error e)
      | some (.ok (_fired, st')) =>
        some (.ok ({ st' with status := IndexStatus.ONESHOT, state_level := ll },
          [ProcessEvent.synchronized ll true, ProcessEvent.statusOneshot ll]))
    else some (.ok (full.st, []))
  match step1 with
  | none => none
  | some (.error e) => some (.error (.sync e))
  | some (.ok (st1, evs)) =>
    match sync_level with
    | none => some (.error .syncLevelNotSet)
    | some sl =>
      if st1.state_level < sl then
        match operation_synchronize hashes handlers st1 batches sl fuel with
        | none => none
        | some (.error e) => some (.error (.sync e))
        | some (.ok (_f, st2)) =>
          some (.ok (⟨st2, []⟩,
            evs ++ [ProcessEvent.queueCleared, ProcessEvent.synchronized sl false]))
      else
        match process_queue hashes handlers st1 full.queue fuel with
        | none => none
        | some (.error e) => some (.error (.queue e))
        | some (.ok (_f, st2)) => some (.ok (⟨st2, []⟩, evs ++ [ProcessEvent.queueDrained]))

/-- `BigMapAction` enum values. -/
inductive BigMapAction
  | allocate
  | add_key
  | update_key
  | remove_key
  | remove
deriving DecidableEq, Repr

/-- Modelled from the spec: `BigMapAction.has_key` lives in `dipdup.models`,
not under `src/`; per the spec an action "implies a key" when it touches a
key (add, update or remove of a key). -/
def BigMapAction.has_key : BigMapAction → Bool
  | .add_key => true
  | .update_key => true
  | .remove_key => true
  | _ => false

/-- Modelled from the spec: `BigMapAction.has_value` lives in `dipdup.models`,
not under `src/`; an action carries a value when it adds or updates a key. -/
def BigMapAction.has_value : BigMapAction → Bool
  | .add_key => true
  | .update_key => true
  | _ => false

/-- `BigMapData` of `dipdup.models`, restricted to the fields `index.py` reads. -/
structure BigMapData where
  level : Nat
  operation_id : Nat
  contract_address : String
  path : String
  action : BigMapAction
  key : String
  value : String
deriving DecidableEq, Repr

/-- `BigMapHandlerConfig`, with the contract reference collapsed to its address. -/
structure BigMapHandlerConfig where
  callback : String
  parent : Bool
  path : String
  contract_address : String
  key_type_cls : TypeCls
  value_type_cls : TypeCls
deriving DecidableEq, Repr

/-- The prepared `BigMapDiff` handler argument. -/
structure BigMapDiff where
  data : BigMapData
  action : BigMapAction
  key : Option String
  value : Option String
deriving DecidableEq, Repr

/-- Errors of `BigMapIndex._prepare_handler_args`: the config-initialization
guard and `InvalidDataError(schema, raw, event)`. -/
inductive BigMapPrepErr
  | configInit
  | invalidData (schema : TypeCls) (raw : String) (event : BigMapData)
deriving DecidableEq, Repr

/-- `BigMapIndex._prepare_handler_args`. The value branch reproduces the
source literally: on a value `ValidationError` the raised `InvalidDataError`
carries `matched_big_map.key` as its raw value. -/
def bigmap_prepare_handler_args (hc : BigMapHandlerConfig) (bm : BigMapData) :
    Except BigMapPrepErr BigMapDiff :=
  if !hc.parent then .error .configInit
  else
    match (if bm.action.has_key then
        match hc.key_type_cls.parse bm.key with
        | none => Except.error (BigMapPrepErr.invalidData hc.key_type_cls bm.key bm)
        | some k => Except.ok (some k)
      else Except.ok none : Except BigMapPrepErr (Option String)) with
    | .error e => .error e
    | .ok key =>
      match (if bm.action.has_value then
          match hc.value_type_cls.parse bm.value with
          | none => Except.error (BigMapPrepErr.invalidData hc.value_type_cls bm.key bm)
          | some v => Except.ok (some v)
        else Except.ok none : Except BigMapPrepErr (Option String)) with
      | .error e => .error e
      | .ok value => .ok ⟨bm, bm.action, key, value⟩

/-- `BigMapIndex._match_big_map`. -/
def match_big_map (hc : BigMapHandlerConfig) (bm : BigMapData) : Bool :=
  if hc.path != bm.path then false
  else if hc.contract_address != bm.contract_address then false
  else true

/-- Inner handler loop of `BigMapIndex._match_big_maps` for one diff. -/
def match_big_maps_inner (bm : BigMapData) : List BigMapHandlerConfig →
    Except BigMapPrepErr (List (BigMapHandlerConfig × BigMapDiff))
  | [] => .ok []
  | hc :: rest =>
    if match_big_map hc bm then
      match bigmap_prepare_handler_args hc bm with
      | .error e => .error e
      | .ok d =>
        match match_big_maps_inner bm rest with
        | .error e => .error e
        | .ok l => .ok ((hc, d) :: l)
    else match_big_maps_inner bm rest

/-- `BigMapIndex._match_big_maps`. -/
def match_big_maps (handlers : List BigMapHandlerConfig) : List BigMapData →
    Except BigMapPrepErr (List (BigMapHandlerConfig × BigMapDiff))
  | [] => .ok []
  | bm :: rest =>
    match match_big_maps_inner bm handlers with
    | .error e => .error e
    | .ok l =>
      match match_big_maps handlers rest with
      | .error e => .error e
      | .ok l2 => .ok (l ++ l2)

/-- The persisted state row (`level`, `status`) of a big-map or head index. -/
structure IndexStateRec where
  level : Nat
  status : IndexStatus
deriving DecidableEq, Repr

/-- `_extract_level` over a big-map batch. -/
def extract_level_bm (bms : List BigMapData) : Option Nat :=
  match dedupNat (bms.map (fun bm => bm.level)) with
  | [l] => some l
  | _ => none

/-- Errors escaping `BigMapIndex._process_level_big_maps`. -/
inductive BigMapErr
  | mixedLevels
  | levelTooLow
  | prep (e : BigMapPrepErr)
deriving DecidableEq, Repr

/-- `BigMapIndex._process_level_big_maps`: note the `level <= state.level`
rejection (no single-level rollback support here). -/
def process_level_big_maps (handlers : List BigMapHandlerConfig) (st : IndexStateRec)
    (bms : List BigMapData) :
    Except BigMapErr (List (BigMapHandlerConfig × BigMapDiff) × IndexStateRec) :=
  if bms.isEmpty then .ok ([], st)
  else
    match extract_level_bm bms with
    | none => .error .mixedLevels
    | some level =>
      if level ≤ st.level then .error .levelTooLow
      else
        match match_big_maps handlers bms with
        | .error e => .error (.prep e)
        | .ok matched => .ok (matched, { st with level := level })

/-- Errors escaping `BigMapIndex._synchronize`. -/
inductive BmSyncErr
  | fromHigher
  | proc (e : BigMapErr)
deriving DecidableEq, Repr

/-- The fetcher loop of `BigMapIndex._synchronize`. -/
def bigmap_sync_batches (handlers : List BigMapHandlerConfig) :
    IndexStateRec → List (List BigMapData) →
    List (BigMapHandlerConfig × BigMapDiff) → Nat →
    Except BmSyncErr (List (BigMapHandlerConfig × BigMapDiff) × IndexStateRec)
  | st, [], fired, last_level =>
    .ok (fired, { st with status := IndexStatus.REALTIME, level := last_level })
  | st, b :: bs, fired, last_level =>
    match process_level_big_maps handlers st b with
    | .error e => .error (.proc e)
    | .ok (f, st') => bigmap_sync_batches handlers st' bs (fired ++ f) last_level

/-- `BigMapIndex._synchronize(last_level, cache)`; the fetcher's per-level
output is the `batches` parameter. -/
def bigmap_synchronize (handlers : List BigMapHandlerConfig) (st : IndexStateRec)
    (batches : List (List BigMapData)) (last_level : Nat) :
    Except BmSyncErr (List (BigMapHandlerConfig × BigMapDiff) × IndexStateRec) :=
  match enter_sync_state st.status st.level last_level with
  | .error _ => .error .fromHigher
  | .ok none => .ok ([], st)
  | .ok (some _first) =>
    bigmap_sync_batches handlers { st with status := IndexStatus.SYNCING } batches [] last_level

/-- `HeadIndex._synchronize`: unconditionally `update_status(REALTIME, last_level)`,
with no `_enter_sync_state` gate. -/
def head_synchronize (st : IndexStateRec) (last_level : Nat) : IndexStateRec :=
  { st with status := IndexStatus.REALTIME, level := last_level }

/-! Predicates about emitted matches and the matcher loop state. -/

/-- Slot `i` of the pattern exists and is optional. -/
def optionalAt (pat : List PatternConfig) (i : Nat) : Prop :=
  ∃ pc, pat.get? i = some pc ∧ pc.optional = true

/-- Slot `i` of the pattern exists and is an origination slot. -/
def origPatAt (pat : List PatternConfig) (i : Nat) : Prop :=
  ∃ p, pat.get? i = some (PatternConfig.origination p)

/-- The argument list of an emitted match lines up with the pattern: it binds
at most `pat.length` slots, slot `i` of the match corresponds to pattern slot
`i`, and every required (non-optional) slot among the bound ones carries a
non-null argument. -/
def ArgsAligned (pat : List PatternConfig) (args : List OperationHandlerArgument) : Prop :=
  args.length ≤ pat.length ∧
  ∀ i, i < args.length → ¬ optionalAt pat i →
    args.get? i ≠ some OperationHandlerArgument.none

/-- Match `mt` binds slot `i` to an origination operation whose originated
contract address is `a`. -/
def OrigBound (mt : MatchedOperations) (i : Nat) (a : Option String) : Prop :=
  ∃ op s, mt.args.get? i = some (OperationHandlerArgument.origination op s) ∧
    op.type = "origination" ∧ op.originated_contract_address = a

/-- A match emitted by a matching pass started with memo `M0` and finished
with memo `m`: its arguments are aligned with its pattern, and every
origination binding was fresh with respect to `M0` and is recorded in `m`. -/
def GoodMatch (M0 m : Memo) (mt : MatchedOperations) : Prop :=
  ArgsAligned mt.handler.pattern mt.args ∧
  ∀ i a, OrigBound mt i a → (mt.hidx, i, a) ∈ m ∧ ¬ (mt.hidx, i, a) ∈ M0

/-- The later match `mt2` does not rebind any `(slot, address)` origination
binding already made by the earlier match `mt1` of the same handler. -/
def NoRebind (mt1 mt2 : MatchedOperations) : Prop :=
  ∀ i a, mt1.hidx = mt2.hidx → OrigBound mt1 i a → ¬ OrigBound mt2 i a

/-- Loop invariant on the `matched_operations` deque of the walk: null
entries sit at optional slots, and origination bindings are recorded in the
current memo and fresh with respect to the pass's initial memo `M0`. -/
def MatchedInv (M0 memo : Memo) (hidx : Nat) (pat : List PatternConfig)
    (matched : List (Option OperationData)) : Prop :=
  (∀ i, matched.get? i = some none → optionalAt pat i) ∧
  (∀ i op, matched.get? i = some (some op) → origPatAt pat i → op.type = "origination" →
    (hidx, i, op.originated_contract_address) ∈ memo ∧
    ¬ (hidx, i, op.originated_contract_address) ∈ M0)

/-! Concrete fixtures used by the witnesses and counterexamples. -/

/-- A concrete contract-hash lookup (the datasource is external). -/
def hashes0 : String → Int × Int := fun _ => (0, 0)

/-- A transaction operation calling entrypoint `transfer`. -/
def opD (lvl : Nat) (h : String) (c : Nat) : OperationData :=
  ⟨lvl, h, c, "transaction", none, none, some "transfer", "pj", "", none, none, none⟩

/-- A required `transfer` transaction slot with no further discriminators. -/
def pcTransfer : PatternConfig :=
  .transaction ⟨some "transfer", none, none, false, none, none⟩

/-- An optional `approve` transaction slot. -/
def pcApprove : PatternConfig :=
  .transaction ⟨some "approve", none, none, true, none, none⟩

/-- Handler with pattern `[required transfer, optional approve]`. -/
def hcPair : OperationHandlerConfig := ⟨"on_transfer", [pcTransfer, pcApprove]⟩

/-- Handler with the single required `transfer` slot. -/
def hcSingle : OperationHandlerConfig := ⟨"cb_single", [pcTransfer]⟩

/-- A parameter schema accepting exactly the raw value `pj`. -/
def pT : TypeCls := ⟨"TransferParameter", [("pj", "decoded")]⟩

/-- Required `transfer` slot with destination `KT1A` and a parameter schema. -/
def pcTransferP : PatternConfig :=
  .transaction ⟨some "transfer", some "KT1A", none, false, some pT, none⟩

/-- Handler with pattern `[required transfer to KT1A, optional approve]`. -/
def hc3 : OperationHandlerConfig := ⟨"on_transfer3", [pcTransferP, pcApprove]⟩

/-- The matching transfer operation of the S2-style scenario, at level 100. -/
def op3 : OperationData :=
  ⟨100, "h3", 1, "transaction", none, some "KT1A", some "transfer", "pj", "", none, none, none⟩

/-- An origination operation originating contract `addr`. -/
def opOrig (h addr : String) : OperationData :=
  ⟨50, h, 1, "origination", none, none, none, "", "", some addr, none, none⟩

/-- A wildcard required origination slot. -/
def pcOrigW : PatternConfig := .origination ⟨none, none, none, false, false, none⟩

/-- Handler with the single wildcard origination slot. -/
def hcOrig : OperationHandlerConfig := ⟨"on_orig", [pcOrigW]⟩

/-- The match emitted for `opOrig "h1" "KT1X"` against `hcOrig`. -/
def mtOrigW : MatchedOperations :=
  ⟨⟨"h1", 1⟩, 0, hcOrig, [.origination (opOrig "h1" "KT1X") none]⟩

/-- A big-map key schema accepting exactly `K`. -/
def keyT : TypeCls := ⟨"LedgerKey", [("K", "k")]⟩

/-- A big-map value schema rejecting every raw value. -/
def valT : TypeCls := ⟨"LedgerValue", []⟩

/-- A big-map handler on path `ledger` of contract `KT1C`. -/
def hc8 : BigMapHandlerConfig := ⟨"on_update", true, "ledger", "KT1C", keyT, valT⟩

/-- An `add_key` diff whose key `K` validates and whose value `V` does not. -/
def bm8 : BigMapData := ⟨300, 17, "KT1C", "ledger", .add_key, "K", "V"⟩

/-! List indexing helpers. -/

theorem get?_append_one {α : Type} (l : List α) (x : α) :
    ∀ (i : Nat) (v : α), (l ++ [x]).get? i = some v →
      l.get? i = some v ∨ (i = l.length ∧ v = x) := by
  induction l with
  | nil =>
    intro i v h
    cases i with
    | zero =>
      right
      refine ⟨rfl, ?_⟩
      simpa [List.get?] using h.symm
    | succ n => simp [List.get?] at h
  | cons a t ih =>
    intro i v h
    cases i with
    | zero =>
      left
      simpa [List.get?] using h
    | succ n =>
      have h' : (t ++ [x]).get? n = some v := by simpa [List.get?] using h
      rcases ih n v h' with h1 | ⟨h2, h3⟩
      · left
        simpa [List.get?] using h1
      · right
        exact ⟨by simp [h2], h3⟩

theorem lt_of_get?_some {α : Type} :
    ∀ (l : List α) (i : Nat) (v : α), l.get? i = some v → i < l.length := by
  intro l
  induction l with
  | nil => intro i v h; simp [List.get?] at h
  | cons a t ih =>
    intro i v h
    cases i with
    | zero => exact Nat.succ_pos _
    | succ n =>
      have := ih n v (by simpa [List.get?] using h)
      exact Nat.succ_lt_succ this

/-! Branch lemmas for `_process_level_operations`. -/

theorem run_match_branch_ok (hashes : String → Int × Int)
    (handlers : List OperationHandlerConfig) (st : OpIndexState)
    (ops : List OperationData) (level fuel : Nat)
    (fired : List MatchedOperations) (st2 : OpIndexState)
    (h : run_match_branch hashes handlers st ops level fuel = some (.ok (fired, st2))) :
    st2.state_level = level ∧ st2.rollback_level = st.rollback_level ∧
      st2.status = st.status := by
  unfold run_match_branch at h
  cases hm : match_operations hashes handlers ops st.memo fuel with
  | none => rw [hm] at h; cases h
  | some r =>
    rw [hm] at h
    cases r with
    | error e => simp at h
    | ok p =>
      obtain ⟨ms, hh, memo'⟩ := p
      simp only [Option.some.injEq, Except.ok.injEq, Prod.mk.injEq] at h
      rw [← h.2]
      exact ⟨rfl, rfl, rfl⟩

theorem run_match_branch_ne_levelTooLow (hashes : String → Int × Int)
    (handlers : List OperationHandlerConfig) (st : OpIndexState)
    (ops : List OperationData) (level fuel : Nat) :
    run_match_branch hashes handlers st ops level fuel ≠
      some (.error ProcErr.levelTooLow) := by
  unfold run_match_branch
  cases hm : match_operations hashes handlers ops st.memo fuel with
  | none => simp
  | some r =>
    cases r with
    | error e => simp
    | ok p => obtain ⟨ms, hh, memo'⟩ := p; simp

/-- C4 (corrected) — counterexample to the claim as stated: with no rollback
armed and `state.level = 5`, a batch at the equal level 5 is processed
without any `RuntimeError` (the source only rejects `level < state.level`),
and a second batch at the same level 5 succeeds again, so successfully
processed batches need not have strictly increasing levels. -/
theorem claim4_counterexample :
    process_level_operations hashes0 [] ⟨5, IndexStatus.REALTIME, none, [], []⟩
        [opD 5 "ha" 1] 3 =
      some (.ok ([], ⟨5, IndexStatus.REALTIME, none, ["ha"], []⟩)) ∧
    process_level_operations hashes0 [] ⟨5, IndexStatus.REALTIME, none, ["ha"], []⟩
        [opD 5 "ha" 1] 3 =
      some (.ok ([], ⟨5, IndexStatus.REALTIME, none, ["ha"], []⟩)) :=
  ⟨rfl, rfl⟩

/-- C4 (corrected) — amended claim: with no rollback armed,
`_process_level_operations` raises the fatal `RuntimeError` exactly when the
batch level is strictly below `state.level`; equality is tolerated even
outside a rollback, and a successful call sets `state.level` to the batch
level, which is at least the old `state.level`. -/
theorem claim4_amended (hashes : String → Int × Int)
    (handlers : List OperationHandlerConfig) (st : OpIndexState)
    (ops : List OperationData) (level fuel : Nat)
    (hrb : truthyNat st.rollback_level = false)
    (hne : ops ≠ []) (hext : extract_level ops = some level) :
    (process_level_operations hashes handlers st ops fuel =
        some (.error ProcErr.levelTooLow) ↔ level < st.state_level) ∧
    (∀ fired st2,
      process_level_operations hashes handlers st ops fuel = some (.ok (fired, st2)) →
      st.state_level ≤ level ∧ st2.state_level = level) := by
  have hemp : ops.isEmpty = false := by
    cases ops with
    | nil => exact absurd rfl hne
    | cons a l => rfl
  simp only [process_level_operations, hemp, Bool.false_eq_true, if_false, hext, hrb]
  by_cases hlt : level < st.state_level
  · simp only [hlt, if_true]
    constructor
    · simp
    · intro fired st2 h
      simp at h
  · simp only [hlt, if_false]
    constructor
    · constructor
      · intro h
        exact absurd h (run_match_branch_ne_levelTooLow hashes handlers st ops level fuel)
      · intro h
        exact h.elim
    · intro fired st2 h
      have := run_match_branch_ok hashes handlers st ops level fuel fired st2 h
      exact ⟨Nat.le_of_not_lt hlt, this.1⟩

/-- C4 witness: the amended claim applied at a concrete input — with
`state.level = 5` and no rollback armed, a batch at level 3 is rejected with
the fatal out-of-order error. -/
theorem claim4_witness :
    process_level_operations hashes0 [] ⟨5, IndexStatus.REALTIME, none, [], []⟩
        [opD 3 "hb" 1] 3 = some (.error ProcErr.levelTooLow) :=
  (claim4_amended hashes0 [] ⟨5, IndexStatus.REALTIME, none, [], []⟩
    [opD 3 "hb" 1] 3 3 rfl (by simp) rfl).1.mpr (by decide)

/-- C5 (corrected) — counterexample to the claim as stated: a rollback armed
at level `L = 0` (equal to `state.level = 0`) is tested by Python truthiness,
so a batch at level 0 missing the previously observed hash `h1` does NOT
trigger `reindex(ROLLBACK)`: it is processed through the ordinary branch and
the rollback state is not cleared. -/
theorem claim5_counterexample :
    process_level_operations hashes0 [] ⟨0, IndexStatus.REALTIME, some 0, ["h1"], []⟩
        [opD 0 "h2" 1] 3 =
      some (.ok ([], ⟨0, IndexStatus.REALTIME, some 0, ["h2"], []⟩)) :=
  rfl

/-- C5 (corrected) — amended claim: for a rollback armed at a nonzero level
`L` equal to `state.level`, a batch at level `L` triggers `reindex(ROLLBACK)`
when some hash of `_head_hashes` is missing from the batch; otherwise only
the operations whose hashes are new (absent from `_head_hashes`) are matched
and handled, and a successful call keeps `state.level = L` and clears the
rollback state. -/
theorem claim5_amended (hashes : String → Int × Int)
    (handlers : List OperationHandlerConfig) (st : OpIndexState)
    (ops : List OperationData) (L fuel : Nat)
    (hrb : st.rollback_level = some L) (hL : L ≠ 0) (hst : st.state_level = L)
    (hne : ops ≠ []) (hext : extract_level ops = some L) :
    ((∃ h ∈ st.head_hashes, ¬ h ∈ ops.map (fun op => op.hash)) →
      process_level_operations hashes handlers st ops fuel =
        some (.error ProcErr.reindexRollback)) ∧
    ((∀ h ∈ st.head_hashes, h ∈ ops.map (fun op => op.hash)) →
      process_level_operations hashes handlers st ops fuel =
        run_match_branch hashes handlers
          { st with rollback_level := none, head_hashes := [] }
          (ops.filter (fun op => !(decide (op.hash ∈ st.head_hashes)))) L fuel ∧
      (∀ fired st2,
        process_level_operations hashes handlers st ops fuel = some (.ok (fired, st2)) →
        st2.state_level = L ∧ st2.rollback_level = none)) := by
  obtain ⟨lv, stt, rb, hh0, mm⟩ := st
  dsimp only at hrb hst ⊢
  subst hrb
  subst hst
  have hemp : ops.isEmpty = false := by
    cases ops with
    | nil => exact absurd rfl hne
    | cons a l => rfl
  have htr : truthyNat (some lv) = true := by simp [truthyNat, hL]
  have hstep : process_level_operations hashes handlers ⟨lv, stt, some lv, hh0, mm⟩ ops fuel =
      (if (hh0.filter (fun (h : String) => !(decide (h ∈ ops.map (fun op => op.hash))))).isEmpty
       then run_match_branch hashes handlers ⟨lv, stt, none, [], mm⟩
         (ops.filter (fun op => decide (op.hash ∈
           (ops.map (fun op => op.hash)).filter (fun (h : String) => !(decide (h ∈ hh0))))))
         lv fuel
       else some (.error ProcErr.reindexRollback)) := by
    simp only [process_level_operations, hemp, Bool.false_eq_true, if_false, hext, htr, if_true,
      Option.getD_some, and_self, eq_self_iff_true, and_true, true_and]
  have hfeq : (ops.filter (fun op => decide (op.hash ∈
        (ops.map (fun op => op.hash)).filter (fun (h : String) => !(decide (h ∈ hh0)))))) =
      ops.filter (fun op => !(decide (op.hash ∈ hh0))) := by
    apply List.filter_congr
    intro op hop
    have hmem : op.hash ∈ ops.map (fun op => op.hash) := List.mem_map_of_mem _ hop
    by_cases hx : op.hash ∈ hh0 <;> simp [List.mem_filter, hmem, hx]
  constructor
  · intro hmiss
    obtain ⟨h, hh, hnot⟩ := hmiss
    have hfil : (hh0.filter
        (fun (h : String) => !(decide (h ∈ ops.map (fun op => op.hash))))).isEmpty = false := by
      rcases hfe : (hh0.filter
          (fun (h : String) => !(decide (h ∈ ops.map (fun op => op.hash))))) with _ | ⟨b, l⟩
      · exfalso
        have := List.filter_eq_nil_iff.mp hfe h hh
        simp [hnot] at this
      · rw [hfe]
        rfl
    rw [hstep]
    simp only [hfil, Bool.false_eq_true, if_false]
  · intro hall
    have hfil : (hh0.filter
        (fun (h : String) => !(decide (h ∈ ops.map (fun op => op.hash))))).isEmpty = true := by
      have hnil : (hh0.filter
          (fun (h : String) => !(decide (h ∈ ops.map (fun op => op.hash))))) = [] := by
        apply List.filter_eq_nil_iff.mpr
        intro a ha
        simp [hall a ha]
      rw [hnil]
      rfl
    have hres : process_level_operations hashes handlers ⟨lv, stt, some lv, hh0, mm⟩ ops fuel =
        run_match_branch hashes handlers ⟨lv, stt, none, [], mm⟩
          (ops.filter (fun op => !(decide (op.hash ∈ hh0)))) lv fuel := by
      rw [hstep]
      simp only [hfil, if_true]
      rw [hfeq]
    refine ⟨hres, ?_⟩
    intro fired st2 h2
    rw [hres] at h2
    have := run_match_branch_ok hashes handlers ⟨lv, stt, none, [], mm⟩
      (ops.filter (fun op => !(decide (op.hash ∈ hh0)))) lv fuel fired st2 h2
    exact ⟨this.1, this.2.1⟩


/-- C5 witness: the amended claim applied at the S5 scenario — state at
level 200 with head hashes `h1, h2` and rollback armed at 200; a re-delivered
batch missing `h2` triggers `reindex(ROLLBACK)`. -/
theorem claim5_witness :
    process_level_operations hashes0 []
        ⟨200, IndexStatus.REALTIME, some 200, ["h1", "h2"], []⟩
        [opD 200 "h1" 1, opD 200 "h3" 3] 3 =
      some (.error ProcErr.reindexRollback) :=
  (claim5_amended hashes0 [] ⟨200, IndexStatus.REALTIME, some 200, ["h1", "h2"], []⟩
    [opD 200 "h1" 1, opD 200 "h3" 3] 200 3 rfl (by decide) rfl (by simp) rfl).1
    (by decide)

/-- C6 (corrected) — counterexample to the claim as stated: with a rollback
already armed at level 0 (`_rollback_level = some 0`), a further
`_single_level_rollback(5)` call does NOT raise the fatal
`already in rollback state` error, because the guard tests the armed marker
by truthiness: the call is simply ignored. -/
theorem claim6_counterexample :
    single_level_rollback ⟨0, IndexStatus.REALTIME, some 0, [], []⟩ 5 =
      .ok ⟨0, IndexStatus.REALTIME, some 0, [], []⟩ :=
  rfl

/-- C6 (corrected) — amended claim: when the armed marker is not truthy
(unarmed, or armed at level 0), `_single_level_rollback(level)` ignores the
call for `state.level < level`, arms `_rollback_level = level` for
`state.level = level`, and raises the fatal error for `state.level > level`;
re-entry raises the fatal `already in rollback state` error only when the
armed level is nonzero. -/
theorem claim6_amended (st : OpIndexState) (level : Nat) :
    (truthyNat st.rollback_level = false → st.state_level < level →
      single_level_rollback st level = .ok st) ∧
    (truthyNat st.rollback_level = false → st.state_level = level →
      single_level_rollback st level = .ok { st with rollback_level := some level }) ∧
    (truthyNat st.rollback_level = false → level < st.state_level →
      single_level_rollback st level = .error RollbackErr.indexAhead) ∧
    (∀ r, st.rollback_level = some r → r ≠ 0 →
      single_level_rollback st level = .error RollbackErr.alreadyInRollback) := by
  refine ⟨?_, ?_, ?_, ?_⟩
  · intro h1 h2
    simp [single_level_rollback, h1, h2]
  · intro h1 h2
    simp [single_level_rollback, h1, h2]
  · intro h1 h2
    have hne : st.state_level ≠ level := Nat.ne_of_gt h2
    have hnl : ¬ st.state_level < level := Nat.not_lt.mpr (Nat.le_of_lt h2)
    simp [single_level_rollback, h1, hne, hnl]
  · intro r hr hne
    have htr : truthyNat st.rollback_level = true := by
      rw [hr]
      simp [truthyNat, hne]
    simp [single_level_rollback, htr]

/-- C6 witness: the amended claim applied at a concrete input — with no
rollback armed and `state.level = 3`, `_single_level_rollback(3)` arms the
rollback at level 3. -/
theorem claim6_witness :
    single_level_rollback ⟨3, IndexStatus.REALTIME, none, [], []⟩ 3 =
      .ok ⟨3, IndexStatus.REALTIME, some 3, [], []⟩ :=
  (claim6_amended ⟨3, IndexStatus.REALTIME, none, [], []⟩ 3).2.1 rfl rfl

/-! `_enter_sync_state` helper lemmas. -/

theorem enter_sync_state_eq (status : IndexStatus) (level : Nat) :
    enter_sync_state status level level = .ok none := by
  by_cases h : status = IndexStatus.ONESHOT <;> simp [enter_sync_state, h]

theorem enter_sync_state_higher (status : IndexStatus) (level last : Nat)
    (h : status ≠ IndexStatus.ONESHOT) (h2 : last < level) :
    enter_sync_state status level last = .error EnterErr.fromHigher := by
  have hne : level ≠ last := Nat.ne_of_gt h2
  simp [enter_sync_state, h, hne, h2]

/-- C7 (corrected) — counterexample to the claim as stated: for the
`HeadIndex` variant, `_synchronize(state.level)` is not a no-op (it flips the
status to `REALTIME` even at an equal level), and `_synchronize(last)` with
`last < state.level` does not raise: it happily moves the level down. -/
theorem claim7_counterexample :
    head_synchronize ⟨5, IndexStatus.NEW⟩ 5 = ⟨5, IndexStatus.REALTIME⟩ ∧
    IndexStatus.NEW ≠ IndexStatus.REALTIME ∧
    head_synchronize ⟨5, IndexStatus.REALTIME⟩ 3 = ⟨3, IndexStatus.REALTIME⟩ :=
  ⟨rfl, by decide, rfl⟩

/-- C7 (corrected) — amended claim: for `OperationIndex` and `BigMapIndex`,
`_synchronize(state.level)` is a no-op changing neither status nor level
(whatever the status), and `_synchronize(last)` with `last < state.level`
raises the fatal error provided the status is not `ONESHOT`;
`HeadIndex._synchronize` instead unconditionally sets status `REALTIME` and
level `last_level`, never raising. -/
theorem claim7_amended :
    (∀ (hashes : String → Int × Int) (handlers : List OperationHandlerConfig)
        (st : OpIndexState) (batches : List (List OperationData)) (fuel : Nat),
      operation_synchronize hashes handlers st batches st.state_level fuel =
        some (.ok ([], st))) ∧
    (∀ (handlers : List BigMapHandlerConfig) (st : IndexStateRec)
        (batches : List (List BigMapData)),
      bigmap_synchronize handlers st batches st.level = .ok ([], st)) ∧
    (∀ (hashes : String → Int × Int) (handlers : List OperationHandlerConfig)
        (st : OpIndexState) (batches : List (List OperationData)) (last fuel : Nat),
      st.status ≠ IndexStatus.ONESHOT → last < st.state_level →
      operation_synchronize hashes handlers st batches last fuel =
        some (.error OpSyncErr.fromHigher)) ∧
    (∀ (handlers : List BigMapHandlerConfig) (st : IndexStateRec)
        (batches : List (List BigMapData)) (last : Nat),
      st.status ≠ IndexStatus.ONESHOT → last < st.level →
      bigmap_synchronize handlers st batches last = .error BmSyncErr.fromHigher) ∧
    (∀ (st : IndexStateRec) (last : Nat),
      head_synchronize st last = ⟨last, IndexStatus.REALTIME⟩) := by
  refine ⟨?_, ?_, ?_, ?_, ?_⟩
  · intro hashes handlers st batches fuel
    simp [operation_synchronize, enter_sync_state_eq]
  · intro handlers st batches
    simp [bigmap_synchronize, enter_sync_state_eq]
  · intro hashes handlers st batches last fuel h1 h2
    simp [operation_synchronize, enter_sync_state_higher st.status st.state_level last h1 h2]
  · intro handlers st batches last h1 h2
    simp [bigmap_synchronize, enter_sync_state_higher st.status st.level last h1 h2]
  · intro st last
    cases st
    rfl

/-- C7 witness: the amended claim applied at concrete inputs — an operation
index at level 7 rejects synchronizing down to 3, and a big-map index at
level 7 and equal target 7 is a no-op. -/
theorem claim7_witness :
    operation_synchronize hashes0 [] ⟨7, IndexStatus.REALTIME, none, [], []⟩ [] 3 1 =
      some (.error OpSyncErr.fromHigher) ∧
    bigmap_synchronize [] ⟨7, IndexStatus.REALTIME⟩ [] 7 = .ok ([], ⟨7, IndexStatus.REALTIME⟩) :=
  ⟨claim7_amended.2.2.1 hashes0 [] ⟨7, IndexStatus.REALTIME, none, [], []⟩ [] 3 1
      (by decide) (by decide),
    claim7_amended.2.1 [] ⟨7, IndexStatus.REALTIME⟩ []⟩

/-- C8 (code bug) — the embedded `BigMapIndex._prepare_handler_args` evaluated
at the failing input: the value `V` of the `add_key` diff fails validation,
and the raised `InvalidDataError` carries the value schema and the source
event, but as its raw value it carries the diff's KEY `K` instead of the
failing value `V` (the source passes `matched_big_map.key` in the value
branch). -/
theorem claim8_divergence :
    bigmap_prepare_handler_args hc8 bm8 =
      .error (BigMapPrepErr.invalidData valT "K" bm8) ∧
    bm8.key = "K" ∧ bm8.value = "V" ∧ ("K" : String) ≠ "V" :=
  ⟨rfl, rfl, rfl, by decide⟩

/-- C10 (confirmed) — when `state.level = 0` and no rollback is armed,
`_single_level_rollback(0)` assigns `_rollback_level = 0`, but the marker is
tested by truthiness: a second call does not raise the
`already in rollback state` error, and a subsequent batch at level 0 is
processed through the ordinary non-rollback branch with no hash
reconciliation (the full batch goes straight to matching). -/
theorem claim10_thm (st : OpIndexState) (h0 : st.state_level = 0)
    (h1 : st.rollback_level = none) :
    single_level_rollback st 0 = .ok { st with rollback_level := some 0 } ∧
    single_level_rollback { st with rollback_level := some 0 } 0 =
      .ok { st with rollback_level := some 0 } ∧
    (∀ (hashes : String → Int × Int) (handlers : List OperationHandlerConfig)
        (ops : List OperationData) (fuel : Nat),
      ops ≠ [] → extract_level ops = some 0 →
      process_level_operations hashes handlers { st with rollback_level := some 0 } ops fuel =
        run_match_branch hashes handlers { st with rollback_level := some 0 } ops 0 fuel) := by
  obtain ⟨lv, stt, rb, hh, mm⟩ := st
  simp only [OpIndexState.mk.injEq] at h0 h1 ⊢
  subst h0
  subst h1
  refine ⟨?_, ?_, ?_⟩
  · simp [single_level_rollback, truthyNat]
  · simp [single_level_rollback, truthyNat]
  · intro hashes handlers ops fuel hne hext
    have hemp : ops.isEmpty = false := by
      cases ops with
      | nil => exact absurd rfl hne
      | cons a l => rfl
    simp [process_level_operations, hemp, hext, truthyNat]

/-- C10 witness: the theorem applied at a concrete input — a batch at
level 0 arriving while `_rollback_level = some 0` goes through the ordinary
matching branch. -/
theorem claim10_witness :
    process_level_operations hashes0 [] ⟨0, IndexStatus.NEW, some 0, [], []⟩
        [opD 0 "hz" 1] 1 =
      run_match_branch hashes0 [] ⟨0, IndexStatus.NEW, some 0, [], []⟩ [opD 0 "hz" 1] 0 1 :=
  (claim10_thm ⟨0, IndexStatus.NEW, none, [], []⟩ rfl rfl).2.2 hashes0 [] [opD 0 "hz" 1] 1
    (by simp) rfl


theorem operation_synchronize_oneshot (hashes : String → Int × Int)
    (handlers : List OperationHandlerConfig) (st : OpIndexState)
    (batches : List (List OperationData)) (last fuel : Nat)
    (h : st.status = IndexStatus.ONESHOT) :
    operation_synchronize hashes handlers st batches last fuel = some (.ok ([], st)) := by
  simp [operation_synchronize, enter_sync_state, h]

/-- C1 (corrected) — counterexample to the claim as stated: a one-shot
operation index (`config.last_level = 100`) whose datasource has no
`sync_level` does NOT simply synchronize, set `ONESHOT` and return; the
missing `return` makes `process()` fall through and raise the
`set_sync_level` `RuntimeError`. -/
theorem claim1_counterexample :
    operation_process hashes0 [] (some 100) none ⟨⟨0, IndexStatus.NEW, none, [], []⟩, []⟩ [] 1 =
      some (.error ProcessErr.syncLevelNotSet) :=
  rfl

/-- C1 (corrected) — amended claim: in one-shot mode `process()` runs
`_synchronize(last_level, cache=true)` and sets status `ONESHOT` at
`last_level`, but does not return: it still requires `datasource.sync_level`
to be set (fatal `RuntimeError` otherwise); then, if `state.level`
(= `last_level`) is below `sync_level` it clears the queue and calls
`_synchronize(sync_level)` — a no-op since the status is now `ONESHOT` —
and otherwise it drains the queue via `_process_queue()`. -/
theorem claim1_amended (hashes : String → Int × Int)
    (handlers : List OperationHandlerConfig) (ll : Nat) (full : OperationIndexFull)
    (batches : List (List OperationData)) (fuel : Nat)
    (fired : List MatchedOperations) (st1 : OpIndexState)
    (hll : ll ≠ 0)
    (hsync : operation_synchronize hashes handlers full.st batches ll fuel =
      some (.ok (fired, st1))) :
    (operation_process hashes handlers (some ll) none full batches fuel =
      some (.error ProcessErr.syncLevelNotSet)) ∧
    (∀ sl, ll < sl →
      operation_process hashes handlers (some ll) (some sl) full batches fuel =
        some (.ok (⟨{ st1 with status := IndexStatus.ONESHOT, state_level := ll }, []⟩,
          [ProcessEvent.synchronized ll true, ProcessEvent.statusOneshot ll,
           ProcessEvent.queueCleared, ProcessEvent.synchronized sl false]))) ∧
    (∀ sl fired2 st2, sl ≤ ll →
      process_queue hashes handlers { st1 with status := IndexStatus.ONESHOT, state_level := ll }
        full.queue fuel = some (.ok (fired2, st2)) →
      operation_process hashes handlers (some ll) (some sl) full batches fuel =
        some (.ok (⟨st2, []⟩,
          [ProcessEvent.synchronized ll true, ProcessEvent.statusOneshot ll,
           ProcessEvent.queueDrained]))) := by
  have htr : truthyNat (some ll) = true := by simp [truthyNat, hll]
  refine ⟨?_, ?_, ?_⟩
  · simp only [operation_process, htr, if_true, hsync, Option.getD_some]
  · intro sl hsl
    simp only [operation_process, htr, if_true, hsync, Option.getD_some]
    rw [if_pos hsl]
    rw [operation_synchronize_oneshot hashes handlers _ batches sl fuel rfl]
    rfl
  · intro sl fired2 st2 hsl hq
    simp only [operation_process, htr, if_true, hsync, Option.getD_some]
    rw [if_neg (Nat.not_lt.mpr hsl)]
    rw [hq]
    rfl

/-- C1 witness: the amended claim applied at a concrete input — with
`last_level = 100` and `sync_level = 200`, one `process()` call synchronizes
to 100, sets `ONESHOT`, and then still clears the queue and re-enters
`_synchronize(200)` as a no-op. -/
theorem claim1_witness :
    operation_process hashes0 [] (some 100) (some 200)
        ⟨⟨0, IndexStatus.NEW, none, [], []⟩, []⟩ [] 1 =
      some (.ok (⟨⟨100, IndexStatus.ONESHOT, none, [], []⟩, []⟩,
        [ProcessEvent.synchronized 100 true, ProcessEvent.statusOneshot 100,
         ProcessEvent.queueCleared, ProcessEvent.synchronized 200 false])) :=
  (claim1_amended hashes0 [] 100 ⟨⟨0, IndexStatus.NEW, none, [], []⟩, []⟩ [] 1 []
    ⟨100, IndexStatus.REALTIME, none, [], []⟩ (by decide) rfl).2.1 200 (by decide)

/-! Properties of `_prepare_handler_args`. -/

theorem prepare_one_ok_none (pc : PatternConfig) (mo : Option OperationData)
    (h : prepare_one pc mo = .ok OperationHandlerArgument.none) : mo = none := by
  cases mo with
  | none => rfl
  | some op =>
    exfalso
    cases pc with
    | transaction p =>
      simp only [prepare_one] at h
      split at h
      · simp at h
      · split at h
        · simp at h
        · split at h
          · simp at h
          · simp at h
    | origination p =>
      simp only [prepare_one] at h
      simp at h

theorem prepare_one_ok_orig (pc : PatternConfig) (mo : Option OperationData)
    (op2 : OperationData) (s : Option String)
    (h : prepare_one pc mo = .ok (OperationHandlerArgument.origination op2 s)) :
    mo = some op2 ∧ ∃ p, pc = PatternConfig.origination p := by
  cases mo with
  | none => simp [prepare_one] at h
  | some op =>
    cases pc with
    | transaction p =>
      exfalso
      simp only [prepare_one] at h
      split at h
      · simp at h
      · split at h
        · simp at h
        · split at h
          · simp at h
          · simp at h
    | origination p =>
      simp only [prepare_one] at h
      simp only [Except.ok.injEq, OperationHandlerArgument.origination.injEq] at h
      exact ⟨by rw [h.1], ⟨p, rfl⟩⟩

theorem prepare_list_spec :
    ∀ (pat : List PatternConfig) (ms : List (Option OperationData))
      (args : List OperationHandlerArgument),
    prepare_list pat ms = .ok args →
    args.length = min pat.length ms.length ∧
    (∀ i, args.get? i = some OperationHandlerArgument.none → ms.get? i = some none) ∧
    (∀ i op s, args.get? i = some (OperationHandlerArgument.origination op s) →
      ms.get? i = some (some op) ∧ ∃ p, pat.get? i = some (PatternConfig.origination p)) := by
  intro pat ms
  induction ms generalizing pat with
  | nil =>
    intro args h
    cases pat with
    | nil =>
      simp only [prepare_list, Except.ok.injEq] at h
      subst h
      exact ⟨by simp, by intro i hi; simp at hi, by intro i op s hi; simp at hi⟩
    | cons pc pat2 =>
      simp only [prepare_list, Except.ok.injEq] at h
      subst h
      exact ⟨by simp, by intro i hi; simp at hi, by intro i op s hi; simp at hi⟩
  | cons mo mos ih =>
    intro args h
    cases pat with
    | nil =>
      simp only [prepare_list, Except.ok.injEq] at h
      subst h
      exact ⟨by simp, by intro i hi; simp at hi, by intro i op s hi; simp at hi⟩
    | cons pc pat2 =>
      simp only [prepare_list] at h
      cases h1 : prepare_one pc mo with
      | error e => rw [h1] at h; simp at h
      | ok a =>
        rw [h1] at h
        cases h2 : prepare_list pat2 mos with
        | error e => rw [h2] at h; simp at h
        | ok rest =>
          rw [h2] at h
          simp only [Except.ok.injEq] at h
          subst h
          obtain ⟨hlen, hnone, horig⟩ := ih pat2 rest h2
          refine ⟨?_, ?_, ?_⟩
          · simp only [List.length_cons, hlen]
            omega
          · intro i hi
            cases i with
            | zero =>
              simp only [List.get?, Option.some.injEq] at hi
              subst hi
              have := prepare_one_ok_none pc mo h1
              simp [List.get?, this]
            | succ n =>
              simp only [List.get?] at hi ⊢
              exact hnone n hi
          · intro i op s hi
            cases i with
            | zero =>
              simp only [List.get?, Option.some.injEq] at hi
              subst hi
              obtain ⟨hmo, p, hpcq⟩ := prepare_one_ok_orig pc mo op s h1
              subst hmo
              subst hpcq
              exact ⟨rfl, ⟨p, rfl⟩⟩
            | succ n =>
              simp only [List.get?] at hi ⊢
              exact horig n op s hi

/-! Properties of the origination memo. -/

theorem origination_processed_subset (hidx pidx : Nat) (a : Option String) (memo : Memo) :
    memo ⊆ (origination_processed hidx pidx a memo).2 := by
  unfold origination_processed
  split
  · exact fun x hx => hx
  · exact fun x hx => List.mem_cons_of_mem _ hx

theorem origination_processed_false (hidx pidx : Nat) (a : Option String) (memo : Memo)
    (h : (origination_processed hidx pidx a memo).1 = false) :
    ¬ (hidx, pidx, a) ∈ memo ∧ (hidx, pidx, a) ∈ (origination_processed hidx pidx a memo).2 := by
  by_cases hm : (hidx, pidx, a) ∈ memo
  · simp [origination_processed, hm] at h
  · simp [origination_processed, hm]

theorem memo_gate_spec (hidx pidx : Nat) (pc : PatternConfig) (op : OperationData)
    (m0 : Bool) (memo : Memo) :
    memo ⊆ (memo_gate hidx pidx pc op m0 memo).2 ∧
    ((memo_gate hidx pidx pc op m0 memo).1 = true →
      (∃ p, pc = PatternConfig.origination p) → op.type = "origination" →
      (hidx, pidx, op.originated_contract_address) ∈ (memo_gate hidx pidx pc op m0 memo).2 ∧
      ¬ (hidx, pidx, op.originated_contract_address) ∈ memo) := by
  cases htype : (op.type == "origination") with
  | false =>
    have hty : op.type ≠ "origination" := by
      intro hcontra
      rw [hcontra] at htype
      simp at htype
    simp only [memo_gate, htype, Bool.false_eq_true, if_false]
    exact ⟨fun x hx => hx, fun _ _ hcontra => absurd hcontra hty⟩
  | true =>
    cases pc with
    | transaction p =>
      simp only [memo_gate, htype, if_true]
      refine ⟨fun x hx => hx, fun _ hex _ => ?_⟩
      obtain ⟨q, hq⟩ := hex
      cases hq
    | origination p =>
      cases m0 with
      | false =>
        simp only [memo_gate, htype, if_true, Bool.false_eq_true, if_false]
        refine ⟨fun x hx => hx, fun hcontra _ _ => ?_⟩
        simp at hcontra
      | true =>
        simp only [memo_gate, htype, if_true]
        constructor
        · exact origination_processed_subset hidx pidx op.originated_contract_address memo
        · intro h1 _ _
          have hq : (origination_processed hidx pidx op.originated_contract_address memo).1
              = false := by
            simpa using h1
          have := origination_processed_false hidx pidx op.originated_contract_address memo hq
          exact ⟨this.2, this.1⟩

/-! Preservation lemmas for the walk invariants. -/

theorem GoodMatch_mono (M0 m m2 : Memo) (h : m ⊆ m2) (mt : MatchedOperations)
    (hg : GoodMatch M0 m mt) : GoodMatch M0 m2 mt :=
  ⟨hg.1, fun i a hb => ⟨h (hg.2 i a hb).1, (hg.2 i a hb).2⟩⟩

theorem MatchedInv_mono (M0 memo memo2 : Memo) (hidx : Nat) (pat : List PatternConfig)
    (matched : List (Option OperationData)) (h : memo ⊆ memo2)
    (hi : MatchedInv M0 memo hidx pat matched) : MatchedInv M0 memo2 hidx pat matched :=
  ⟨hi.1, fun i op h1 h2 h3 =>
    ⟨h (hi.2 i op h1 h2 h3).1, (hi.2 i op h1 h2 h3).2⟩⟩

theorem MatchedInv_nil (M0 memo : Memo) (hidx : Nat) (pat : List PatternConfig) :
    MatchedInv M0 memo hidx pat [] := by
  constructor
  · intro i h
    simp at h
  · intro i op h
    simp at h

theorem MatchedInv_snoc_none (M0 memo : Memo) (hidx : Nat) (pat : List PatternConfig)
    (matched : List (Option OperationData))
    (hi : MatchedInv M0 memo hidx pat matched)
    (hopt : optionalAt pat matched.length) :
    MatchedInv M0 memo hidx pat (matched ++ [none]) := by
  constructor
  · intro i h
    rcases get?_append_one matched none i _ h with h1 | ⟨h2, _⟩
    · exact hi.1 i h1
    · rw [h2]
      exact hopt
  · intro i op h h2 h3
    rcases get?_append_one matched none i _ h with h1 | ⟨_, hcontra⟩
    · exact hi.2 i op h1 h2 h3
    · cases hcontra

theorem MatchedInv_snoc_some (M0 memo memo2 : Memo) (hidx : Nat) (pat : List PatternConfig)
    (matched : List (Option OperationData)) (op : OperationData)
    (hi : MatchedInv M0 memo hidx pat matched) (hsub : memo ⊆ memo2)
    (hnew : origPatAt pat matched.length → op.type = "origination" →
      (hidx, matched.length, op.originated_contract_address) ∈ memo2 ∧
      ¬ (hidx, matched.length, op.originated_contract_address) ∈ M0) :
    MatchedInv M0 memo2 hidx pat (matched ++ [some op]) := by
  constructor
  · intro i h
    rcases get?_append_one matched (some op) i _ h with h1 | ⟨_, hcontra⟩
    · exact hi.1 i h1
    · cases hcontra
  · intro i op2 h h2 h3
    rcases get?_append_one matched (some op) i _ h with h1 | ⟨hl, heq⟩
    · have := hi.2 i op2 h1 h2 h3
      exact ⟨hsub this.1, this.2⟩
    · have hop : op2 = op := by injection heq
      subst hop
      subst hl
      exact hnew h2 h3

theorem emit_good (M0 memo : Memo) (sg : OperationSubgroup) (hidx : Nat)
    (hc : OperationHandlerConfig) (matched : List (Option OperationData))
    (args : List OperationHandlerArgument)
    (hi : MatchedInv M0 memo hidx hc.pattern matched)
    (_hlen : matched.length ≤ hc.pattern.length)
    (hp : prepare_handler_args hc matched = .ok args) :
    GoodMatch M0 memo ⟨sg, hidx, hc, args⟩ := by
  obtain ⟨hl, hnone, horig⟩ := prepare_list_spec hc.pattern matched args hp
  constructor
  · constructor
    · rw [hl]
      exact min_le_left _ _
    · intro i hlt hno hcontra
      exact hno (hi.1 i (hnone i hcontra))
  · intro i a hb
    obtain ⟨op, s, hargs, htype, haddr⟩ := hb
    obtain ⟨hm, p, hpat⟩ := horig i op s hargs
    have := hi.2 i op hm ⟨p, hpat⟩ htype
    exact ⟨haddr ▸ this.1, haddr ▸ this.2⟩


theorem emit_no_rebind (sg : OperationSubgroup) (hidx : Nat) (hc : OperationHandlerConfig)
    (matched : List (Option OperationData)) (args : List OperationHandlerArgument)
    (acc : List MatchedOperations)
    (hp : prepare_handler_args hc matched = .ok args)
    (hMA : ∀ i op, matched.get? i = some (some op) → origPatAt hc.pattern i →
      op.type = "origination" → ∀ mt ∈ acc, mt.hidx = hidx →
      ¬ OrigBound mt i op.originated_contract_address) :
    ∀ mt ∈ acc, NoRebind mt ⟨sg, hidx, hc, args⟩ := by
  intro mt hmt i a hhidx hb1 hb2
  obtain ⟨op, s, hargs, htype, haddr⟩ := hb2
  obtain ⟨hm, p, hpat⟩ := (prepare_list_spec hc.pattern matched args hp).2.2 i op s hargs
  have hb1x : OrigBound mt i op.originated_contract_address := by
    rw [haddr]
    exact hb1
  exact hMA i op hm ⟨p, hpat⟩ htype mt hmt hhidx hb1x

theorem handlerLoop_spec (hashes : String → Int × Int) (sg : OperationSubgroup) (hidx : Nat)
    (hc : OperationHandlerConfig) (ops : List OperationData) (M0 : Memo) :
    ∀ (fuel oidx pidx : Nat) (matched : List (Option OperationData))
      (acc ms : List MatchedOperations) (memo memo2 : Memo),
    handlerLoop hashes sg hidx hc ops fuel oidx pidx matched acc memo =
      some (.ok (ms, memo2)) →
    matched.length = pidx → pidx ≤ hc.pattern.length →
    MatchedInv M0 memo hidx hc.pattern matched →
    M0 ⊆ memo →
    (∀ mt ∈ acc, GoodMatch M0 memo mt) →
    (∀ i op, matched.get? i = some (some op) → origPatAt hc.pattern i →
      op.type = "origination" → ∀ mt ∈ acc, mt.hidx = hidx →
      ¬ OrigBound mt i op.originated_contract_address) →
    List.Pairwise NoRebind acc →
    (∀ mt ∈ ms, GoodMatch M0 memo2 mt) ∧ memo ⊆ memo2 ∧ List.Pairwise NoRebind ms := by
  intro fuel
  induction fuel with
  | zero =>
    intro oidx pidx matched acc ms memo memo2 hrun
    simp [handlerLoop] at hrun
  | succ fuel ih =>
    intro oidx pidx matched acc ms memo memo2 hrun hlen hple hinv hM0 hacc hMA hpw
    simp only [handlerLoop] at hrun
    split at hrun
    · -- ops.get? oidx = none : trailing emission check
      split at hrun
      · -- required count reached
        split at hrun
        · -- prepare raised
          simp at hrun
        · -- prepare succeeded
          rename_i args hp
          simp only [Option.some.injEq, Except.ok.injEq, Prod.mk.injEq] at hrun
          obtain ⟨h1, h2⟩ := hrun
          subst h1
          subst h2
          refine ⟨?_, fun x hx => hx, ?_⟩
          · intro mt hmt
            rcases List.mem_append.mp hmt with hmt | hmt
            · exact hacc mt hmt
            · rw [List.mem_singleton.mp hmt]
              exact emit_good M0 memo sg hidx hc matched args hinv (hlen ▸ hple) hp
          · refine List.pairwise_append.mpr ⟨hpw, by simp, ?_⟩
            intro a ha b hb
            rw [List.mem_singleton.mp hb]
            exact emit_no_rebind sg hidx hc matched args acc hp hMA a ha
      · -- too few matched operations: no trailing emission
        simp only [Option.some.injEq, Except.ok.injEq, Prod.mk.injEq] at hrun
        obtain ⟨h1, h2⟩ := hrun
        subst h1
        subst h2
        exact ⟨hacc, fun x hx => hx, hpw⟩
    · -- ops.get? oidx = some op
      rename_i op hop
      split at hrun
      · -- pattern index out of range: fatal
        simp at hrun
      · rename_i pc hpc
        obtain ⟨hsubG, hrecG⟩ := memo_gate_spec hidx pidx pc op (match_operation hashes pc op) memo
        have hM0' : M0 ⊆ (memo_gate hidx pidx pc op (match_operation hashes pc op) memo).2 :=
          fun x hx => hsubG (hM0 hx)
        have hpidx_lt : pidx < hc.pattern.length := lt_of_get?_some _ _ _ hpc
        have haccG : ∀ mt ∈ acc,
            GoodMatch M0 (memo_gate hidx pidx pc op (match_operation hashes pc op) memo).2 mt :=
          fun mt hmt => GoodMatch_mono M0 memo _ hsubG mt (hacc mt hmt)
        split at hrun
        · -- the slot matched: bind the operation
          rename_i hb
          have hinv' : MatchedInv M0
              (memo_gate hidx pidx pc op (match_operation hashes pc op) memo).2 hidx
              hc.pattern (matched ++ [some op]) := by
            refine MatchedInv_snoc_some M0 memo _ hidx hc.pattern matched op hinv hsubG ?_
            intro horig htype
            rw [hlen] at horig ⊢
            obtain ⟨p, hp2⟩ := horig
            rw [hpc] at hp2
            have hexists : ∃ q, pc = PatternConfig.origination q :=
              ⟨p, Option.some.inj hp2⟩
            have := hrecG hb hexists htype
            exact ⟨this.1, fun hcontra => this.2 (hM0 hcontra)⟩
          have hMAx : ∀ i op2, (matched ++ [some op]).get? i = some (some op2) →
              origPatAt hc.pattern i → op2.type = "origination" →
              ∀ mt ∈ acc, mt.hidx = hidx →
              ¬ OrigBound mt i op2.originated_contract_address := by
            intro i op2 hgi horig htype mt hmt hhidx hbound
            rcases get?_append_one matched (some op) i _ hgi with h1 | ⟨hl, heq⟩
            · exact hMA i op2 h1 horig htype mt hmt hhidx hbound
            · have hop2 : op2 = op := by injection heq
              subst hop2
              subst hl
              rw [hlen] at horig hbound
              obtain ⟨p, hp2⟩ := horig
              rw [hpc] at hp2
              have hexists : ∃ q, pc = PatternConfig.origination q :=
                ⟨p, Option.some.inj hp2⟩
              have hfresh := (hrecG hb hexists htype).2
              have hmem := ((hacc mt hmt).2 pidx op2.originated_contract_address hbound).1
              rw [hhidx] at hmem
              exact hfresh hmem
          split at hrun
          · -- pattern completed: emit and reset
            rename_i hemit
            split at hrun
            · simp at hrun
            · rename_i args hp
              have hGm : GoodMatch M0
                  (memo_gate hidx pidx pc op (match_operation hashes pc op) memo).2
                  ⟨sg, hidx, hc, args⟩ := by
                refine emit_good M0 _ sg hidx hc (matched ++ [some op]) args hinv' ?_ hp
                simp only [List.length_append, List.length_cons, List.length_nil, hlen]
                omega
              have haccNew : ∀ mt ∈ acc ++ [⟨sg, hidx, hc, args⟩],
                  GoodMatch M0
                    (memo_gate hidx pidx pc op (match_operation hashes pc op) memo).2 mt := by
                intro mt hmt
                rcases List.mem_append.mp hmt with hmt | hmt
                · exact haccG mt hmt
                · rw [List.mem_singleton.mp hmt]
                  exact hGm
              have hMAnil : ∀ i op2,
                  ([] : List (Option OperationData)).get? i = some (some op2) →
                  origPatAt hc.pattern i → op2.type = "origination" →
                  ∀ mt ∈ acc ++ [⟨sg, hidx, hc, args⟩], mt.hidx = hidx →
                  ¬ OrigBound mt i op2.originated_contract_address := by
                intro i op2 hgi
                simp at hgi
              have hpw' : List.Pairwise NoRebind (acc ++ [⟨sg, hidx, hc, args⟩]) := by
                refine List.pairwise_append.mpr ⟨hpw, by simp, ?_⟩
                intro a ha b hb
                rw [List.mem_singleton.mp hb]
                exact emit_no_rebind sg hidx hc (matched ++ [some op]) args acc hp hMAx a ha
              have hrec := ih (oidx + 1) 0 [] (acc ++ [⟨sg, hidx, hc, args⟩]) ms _ memo2 hrun
                rfl (Nat.zero_le _) (MatchedInv_nil M0 _ hidx hc.pattern) hM0' haccNew hMAnil hpw'
              exact ⟨hrec.1, fun x hx => hrec.2.1 (hsubG hx), hrec.2.2⟩
          · -- pattern not yet complete: keep walking
            rename_i hemit
            have hrec := ih (oidx + 1) (pidx + 1) (matched ++ [some op]) acc ms _ memo2 hrun
              (by simp [hlen]) (Nat.succ_le_of_lt hpidx_lt) hinv' hM0' haccG hMAx hpw
            exact ⟨hrec.1, fun x hx => hrec.2.1 (hsubG hx), hrec.2.2⟩
        · -- no match on this operation
          rename_i hb
          split at hrun
          · -- optional slot: bind a null placeholder
            rename_i hopt
            have hinv' : MatchedInv M0
                (memo_gate hidx pidx pc op (match_operation hashes pc op) memo).2 hidx
                hc.pattern (matched ++ [none]) := by
              refine MatchedInv_snoc_none M0 _ hidx hc.pattern matched
                (MatchedInv_mono M0 memo _ hidx hc.pattern matched hsubG hinv) ?_
              rw [hlen]
              exact ⟨pc, hpc, hopt⟩
            have hMAx : ∀ i op2, (matched ++ [none]).get? i = some (some op2) →
                origPatAt hc.pattern i → op2.type = "origination" →
                ∀ mt ∈ acc, mt.hidx = hidx →
                ¬ OrigBound mt i op2.originated_contract_address := by
              intro i op2 hgi horig htype mt hmt hhidx hbound
              rcases get?_append_one matched none i _ hgi with h1 | ⟨_, heq⟩
              · exact hMA i op2 h1 horig htype mt hmt hhidx hbound
              · cases heq
            split at hrun
            · -- pattern completed: emit and reset
              rename_i hemit
              split at hrun
              · simp at hrun
              · rename_i args hp
                have hGm : GoodMatch M0
                    (memo_gate hidx pidx pc op (match_operation hashes pc op) memo).2
                    ⟨sg, hidx, hc, args⟩ := by
                  refine emit_good M0 _ sg hidx hc (matched ++ [none]) args hinv' ?_ hp
                  simp only [List.length_append, List.length_cons, List.length_nil, hlen]
                  omega
                have haccNew : ∀ mt ∈ acc ++ [⟨sg, hidx, hc, args⟩],
                    GoodMatch M0
                      (memo_gate hidx pidx pc op (match_operation hashes pc op) memo).2 mt := by
                  intro mt hmt
                  rcases List.mem_append.mp hmt with hmt | hmt
                  · exact haccG mt hmt
                  · rw [List.mem_singleton.mp hmt]
                    exact hGm
                have hMAnil : ∀ i op2,
                    ([] : List (Option OperationData)).get? i = some (some op2) →
                    origPatAt hc.pattern i → op2.type = "origination" →
                    ∀ mt ∈ acc ++ [⟨sg, hidx, hc, args⟩], mt.hidx = hidx →
                    ¬ OrigBound mt i op2.originated_contract_address := by
                  intro i op2 hgi
                  simp at hgi
                have hpw' : List.Pairwise NoRebind (acc ++ [⟨sg, hidx, hc, args⟩]) := by
                  refine List.pairwise_append.mpr ⟨hpw, by simp, ?_⟩
                  intro a ha b hb
                  rw [List.mem_singleton.mp hb]
                  exact emit_no_rebind sg hidx hc (matched ++ [none]) args acc hp hMAx a ha
                have hrec := ih oidx 0 [] (acc ++ [⟨sg, hidx, hc, args⟩]) ms _ memo2 hrun
                  rfl (Nat.zero_le _) (MatchedInv_nil M0 _ hidx hc.pattern) hM0' haccNew hMAnil
                  hpw'
                exact ⟨hrec.1, fun x hx => hrec.2.1 (hsubG hx), hrec.2.2⟩
            · -- pattern not yet complete
              rename_i hemit
              have hrec := ih oidx (pidx + 1) (matched ++ [none]) acc ms _ memo2 hrun
                (by simp [hlen]) (Nat.succ_le_of_lt hpidx_lt) hinv' hM0' haccG hMAx hpw
              exact ⟨hrec.1, fun x hx => hrec.2.1 (hsubG hx), hrec.2.2⟩
          · -- required slot, no match: skip the operation
            rename_i hopt
            have hrec := ih (oidx + 1) pidx matched acc ms _ memo2 hrun hlen hple
              (MatchedInv_mono M0 memo _ hidx hc.pattern matched hsubG hinv) hM0' haccG hMA hpw
            exact ⟨hrec.1, fun x hx => hrec.2.1 (hsubG hx), hrec.2.2⟩

theorem handlersLoop_spec (hashes : String → Int × Int) (sg : OperationSubgroup)
    (ops : List OperationData) (fuel : Nat) (M0 : Memo) :
    ∀ (handlers : List OperationHandlerConfig) (hidx0 : Nat)
      (acc ms : List MatchedOperations) (memo memo2 : Memo),
    handlersLoop hashes sg ops fuel handlers hidx0 acc memo = some (.ok (ms, memo2)) →
    M0 ⊆ memo → (∀ mt ∈ acc, GoodMatch M0 memo mt) → List.Pairwise NoRebind acc →
    (∀ mt ∈ ms, GoodMatch M0 memo2 mt) ∧ memo ⊆ memo2 ∧ List.Pairwise NoRebind ms := by
  intro handlers
  induction handlers with
  | nil =>
    intro hidx0 acc ms memo memo2 h hM0 hacc hpw
    simp only [handlersLoop, Option.some.injEq, Except.ok.injEq, Prod.mk.injEq] at h
    obtain ⟨h1, h2⟩ := h
    subst h1
    subst h2
    exact ⟨hacc, fun x hx => hx, hpw⟩
  | cons hc rest ih =>
    intro hidx0 acc ms memo memo2 h hM0 hacc hpw
    simp only [handlersLoop] at h
    split at h
    · cases h
    · simp at h
    · rename_i acc2 memo3 heq
      have hMA0 : ∀ i op, ([] : List (Option OperationData)).get? i = some (some op) →
          origPatAt hc.pattern i → op.type = "origination" →
          ∀ mt ∈ acc, mt.hidx = hidx0 → ¬ OrigBound mt i op.originated_contract_address := by
        intro i op hgi
        simp at hgi
      have hspec := handlerLoop_spec hashes sg hidx0 hc ops M0 fuel 0 0 [] acc acc2 memo memo3
        heq rfl (Nat.zero_le _) (MatchedInv_nil M0 memo hidx0 hc.pattern) hM0 hacc hMA0 hpw
      have hrec := ih (hidx0 + 1) acc2 ms memo3 memo2 h
        (fun x hx => hspec.2.1 (hM0 hx)) hspec.1 hspec.2.2
      exact ⟨hrec.1, fun x hx => hrec.2.1 (hspec.2.1 hx), hrec.2.2⟩

theorem subgroupsLoop_spec (hashes : String → Int × Int)
    (handlers : List OperationHandlerConfig) (fuel : Nat) (M0 : Memo) :
    ∀ (sgs : List (OperationSubgroup × List OperationData))
      (acc ms : List MatchedOperations) (memo memo2 : Memo),
    subgroupsLoop hashes handlers fuel sgs acc memo = some (.ok (ms, memo2)) →
    M0 ⊆ memo → (∀ mt ∈ acc, GoodMatch M0 memo mt) → List.Pairwise NoRebind acc →
    (∀ mt ∈ ms, GoodMatch M0 memo2 mt) ∧ memo ⊆ memo2 ∧ List.Pairwise NoRebind ms := by
  intro sgs
  induction sgs with
  | nil =>
    intro acc ms memo memo2 h hM0 hacc hpw
    simp only [subgroupsLoop, Option.some.injEq, Except.ok.injEq, Prod.mk.injEq] at h
    obtain ⟨h1, h2⟩ := h
    subst h1
    subst h2
    exact ⟨hacc, fun x hx => hx, hpw⟩
  | cons p rest ih =>
    intro acc ms memo memo2 h hM0 hacc hpw
    obtain ⟨sg, sgops⟩ := p
    simp only [subgroupsLoop] at h
    split at h
    · cases h
    · simp at h
    · rename_i acc2 memo3 heq
      have hspec := handlersLoop_spec hashes sg sgops fuel M0 handlers 0 acc acc2 memo memo3
        heq hM0 hacc hpw
      have hrec := ih acc2 ms memo3 memo2 h (fun x hx => hspec.2.1 (hM0 hx)) hspec.1 hspec.2.2
      exact ⟨hrec.1, fun x hx => hrec.2.1 (hspec.2.1 hx), hrec.2.2⟩

theorem match_operations_good (hashes : String → Int × Int)
    (handlers : List OperationHandlerConfig) (ops : List OperationData)
    (memo0 : Memo) (fuel : Nat) (ms : List MatchedOperations) (hh : List String)
    (memo1 : Memo)
    (h : match_operations hashes handlers ops memo0 fuel = some (.ok (ms, hh, memo1))) :
    (∀ mt ∈ ms, GoodMatch memo0 memo1 mt) ∧ memo0 ⊆ memo1 ∧
      List.Pairwise NoRebind ms := by
  simp only [match_operations] at h
  split at h
  · cases h
  · simp at h
  · rename_i ms2 memo2 heq
    simp only [Option.some.injEq, Except.ok.injEq, Prod.mk.injEq] at h
    obtain ⟨h1, _, h3⟩ := h
    subst h1
    subst h3
    exact subgroupsLoop_spec hashes handlers fuel memo0 (groupSubgroups ops) [] ms2 memo0 memo2
      heq (fun x hx => hx) (fun mt hmt => absurd hmt (List.not_mem_nil mt)) List.Pairwise.nil

/-- C2 (corrected) — counterexample to the claim as stated: with the handler
pattern `[required transfer, optional approve]` and a batch holding only the
matching transfer, the single emitted match binds 1 slot while the pattern
has 2 slots (the trailing emission truncates; no null placeholder is added
for the unmatched optional slot). -/
theorem claim2_counterexample :
    match_operations hashes0 [hcPair] [opD 100 "h1" 1] [] 6 =
      some (.ok ([⟨⟨"h1", 1⟩, 0, hcPair,
        [.transaction (opD 100 "h1" 1) none none]⟩], ["h1"], [])) ∧
    hcPair.pattern.length = 2 :=
  ⟨rfl, rfl⟩

/-- C2 (corrected) — amended claim: every match emitted by
`_match_operations` binds AT MOST as many slots as the handler pattern has;
the bound slots pair up with the pattern slots of the same index, and every
required (non-optional) slot among the bound ones is bound to a non-null
operation. -/
theorem claim2_amended (hashes : String → Int × Int)
    (handlers : List OperationHandlerConfig) (ops : List OperationData)
    (memo0 : Memo) (fuel : Nat) (ms : List MatchedOperations) (hh : List String)
    (memo1 : Memo)
    (h : match_operations hashes handlers ops memo0 fuel = some (.ok (ms, hh, memo1))) :
    ∀ mt ∈ ms, ArgsAligned mt.handler.pattern mt.args :=
  fun mt hmt =>
    ((match_operations_good hashes handlers ops memo0 fuel ms hh memo1 h).1 mt hmt).1

/-- C2 witness: the amended claim applied at a concrete input — the single
match of a one-slot handler has aligned arguments. -/
theorem claim2_witness :
    ArgsAligned hcSingle.pattern [OperationHandlerArgument.transaction (opD 60 "hw" 1) none none] :=
  claim2_amended hashes0 [hcSingle] [opD 60 "hw" 1] [] 4
    [⟨⟨"hw", 1⟩, 0, hcSingle, [.transaction (opD 60 "hw" 1) none none]⟩] ["hw"] [] rfl
    ⟨⟨"hw", 1⟩, 0, hcSingle, [.transaction (opD 60 "hw" 1) none none]⟩ (by simp)

/-- C3 (code bug) — the embedded matcher evaluated at the S2 scenario:
pattern `[required transfer to KT1A, optional approve]`, batch with only the
matching transfer at level 100. Exactly one match fires and `state.level`
advances to 100, but the prepared handler arguments are `[Transaction]`
(one element, parameter decoded) — the trailing emission zips pattern and
matched operations, so no `None` placeholder is produced for the unmatched
optional slot. -/
theorem claim3_divergence :
    match_operations hashes0 [hc3] [op3] [] 5 =
      some (.ok ([⟨⟨"h3", 1⟩, 0, hc3, [.transaction op3 (some "decoded") none]⟩],
        ["h3"], [])) ∧
    process_level_operations hashes0 [hc3] ⟨0, IndexStatus.REALTIME, none, [], []⟩ [op3] 5 =
      some (.ok ([⟨⟨"h3", 1⟩, 0, hc3, [.transaction op3 (some "decoded") none]⟩],
        ⟨100, IndexStatus.REALTIME, none, ["h3"], []⟩)) ∧
    [OperationHandlerArgument.transaction op3 (some "decoded") none].length = 1 ∧
    hc3.pattern.length = 2 :=
  ⟨rfl, rfl, rfl, rfl⟩

/-- C9 (confirmed) — the per-slot origination memo lives on the pattern
config and is never reset, so the de-duplication holds within one
`_match_operations` pass (across subgroups and across repeated matches of
one handler) and across separate passes (later batches and calls):
(1) any origination binding emitted by a pass was absent from the memo the
pass started with and is recorded in the memo it returns; (2) within one
pass the emitted matches are pairwise non-rebinding — once a match binds a
`(handler, slot, address)`, no later match of the same pass binds it again;
(3) the starting memo survives into the returned memo; (4) hence a second
pass can never bind the same slot of the same handler to an origination with
the same originated contract address again. -/
theorem claim9_thm (hashes : String → Int × Int)
    (handlers : List OperationHandlerConfig) (ops : List OperationData)
    (memo0 : Memo) (fuel : Nat) (ms : List MatchedOperations) (hh : List String)
    (memo1 : Memo)
    (h : match_operations hashes handlers ops memo0 fuel = some (.ok (ms, hh, memo1))) :
    (∀ mt ∈ ms, ∀ i a, OrigBound mt i a →
      ¬ (mt.hidx, i, a) ∈ memo0 ∧ (mt.hidx, i, a) ∈ memo1) ∧
    List.Pairwise NoRebind ms ∧
    memo0 ⊆ memo1 ∧
    (∀ (ops2 : List OperationData) (fuel2 : Nat) (ms2 : List MatchedOperations)
        (hh2 : List String) (memo2 : Memo),
      match_operations hashes handlers ops2 memo1 fuel2 = some (.ok (ms2, hh2, memo2)) →
      ∀ mt ∈ ms, ∀ i a, OrigBound mt i a →
      ∀ mt2 ∈ ms2, mt2.hidx = mt.hidx → ¬ OrigBound mt2 i a) := by
  have hg := match_operations_good hashes handlers ops memo0 fuel ms hh memo1 h
  refine ⟨?_, hg.2.2, hg.2.1, ?_⟩
  · intro mt hmt i a hb
    exact ⟨((hg.1 mt hmt).2 i a hb).2, ((hg.1 mt hmt).2 i a hb).1⟩
  · intro ops2 fuel2 ms2 hh2 memo2 h2 mt hmt i a hb mt2 hmt2 hx hb2
    have hg2 := match_operations_good hashes handlers ops2 memo1 fuel2 ms2 hh2 memo2 h2
    have h1mem : (mt.hidx, i, a) ∈ memo1 := ((hg.1 mt hmt).2 i a hb).1
    have hnot : ¬ (mt2.hidx, i, a) ∈ memo1 := ((hg2.1 mt2 hmt2).2 i a hb2).2
    rw [hx] at hnot
    exact hnot h1mem

/-- C9 witness: the theorem applied at a concrete input — the wildcard
origination slot binds contract `KT1X` in a first pass starting from the
empty memo, so the address was fresh and is recorded in the returned memo. -/
theorem claim9_witness :
    ¬ ((0 : Nat), (0 : Nat), (some "KT1X" : Option String)) ∈ ([] : Memo) ∧
    ((0 : Nat), (0 : Nat), (some "KT1X" : Option String)) ∈
      ([((0 : Nat), (0 : Nat), (some "KT1X" : Option String))] : Memo) :=
  (claim9_thm hashes0 [hcOrig] [opOrig "h1" "KT1X"] [] 6 [mtOrigW] ["h1"]
    [(0, 0, some "KT1X")] rfl).1 mtOrigW (by simp) 0 (some "KT1X")
    ⟨opOrig "h1" "KT1X", none, rfl, rfl, rfl⟩

end Dipdup
